import Mathlib

/-!
Verification of the newsletter-delivery core of `email_newsletter`.

The Rust sources are shallowly embedded: every database table is a Lean
list of rows, UUIDs are `Nat`, timestamps are `Int` seconds, byte strings
are `List Nat`.  Each SQL statement of the source becomes a pure update of
the `DB` record; a still-open transaction is a list of pending writes that
a commit folds into the database, and a rollback discards.
-/

namespace Newsletter

/-- Row of `issue_delivery_queue` (see `src/issue_delivery_queue.rs`):
`(newsletter_issue_id, subscriber_email)` primary key, `attempt_count`
defaulting to 0, nullable `last_attempted_at` and `error_message`. -/
structure QueueRow where
  newsletter_issue_id : Nat
  subscriber_email : String
  attempt_count : Nat
  last_attempted_at : Option Int
  error_message : Option String
deriving DecidableEq, Repr

/-- Row of `dead_letter_queue`: `(newsletter_issue_id, subscriber_email)`
primary key, `attempt_count`, `last_error`, `failed_at`. -/
structure DLQRow where
  newsletter_issue_id : Nat
  subscriber_email : String
  attempt_count : Nat
  last_error : String
  failed_at : Int
deriving DecidableEq, Repr

/-- Row of `newsletter_issues`. -/
structure IssueRow where
  newsletter_issue_id : Nat
  title : String
  text_content : String
  html_content : String
  published_at : Int
deriving DecidableEq, Repr

/-- Row of `subscriptions`: `status` is `"pending_confirmation"` or
`"confirmed"`. -/
structure SubRow where
  id : Nat
  email : String
  name : String
  subscribed_at : Int
  status : String
deriving DecidableEq, Repr

/-- Row of `subscription_tokens`. -/
structure TokenRow where
  subscription_token : String
  subscriber_id : Nat
deriving DecidableEq, Repr

/-- The `header_pair` composite type of the idempotency schema
(`HeaderPairRecord` in `src/idempotency/persistence.rs`). -/
structure HeaderPairRecord where
  name : String
  value : List Nat
deriving DecidableEq, Repr

/-- The non-null response columns of an `idempotency` row:
`response_status_code smallint`, `response_headers header_pair[]`,
`response_body bytea`. -/
structure SavedResp where
  response_status_code : Int
  response_headers : List HeaderPairRecord
  response_body : List Nat
deriving DecidableEq, Repr

/-- Row of `idempotency`: a `response = none` row is an in-flight
reservation, `some` is a completed record. -/
structure IdemRow where
  user_id : Nat
  idempotency_key : String
  created_at : Int
  response : Option SavedResp
deriving DecidableEq, Repr

/-- The whole relational state. -/
structure DB where
  subscriptions : List SubRow
  subscription_tokens : List TokenRow
  newsletter_issues : List IssueRow
  issue_delivery_queue : List QueueRow
  idempotency : List IdemRow
  dead_letter_queue : List DLQRow
deriving DecidableEq, Repr

/-- An HTTP response as the idempotency layer observes it: status code,
header list in order (duplicates allowed), fully materialized body bytes. -/
structure HttpResponse where
  status : Nat
  headers : List (String × List Nat)
  body : List Nat
deriving DecidableEq, Repr

/-- Decidable equality for `Except`, used to evaluate the model on concrete
inputs. -/
instance {ε α : Type} [DecidableEq ε] [DecidableEq α] :
    DecidableEq (Except ε α) := fun x y =>
  match x, y with
  | .ok v, .ok w =>
    if h : v = w then .isTrue (by rw [h])
    else .isFalse (by intro hx; injection hx; contradiction)
  | .error v, .error w =>
    if h : v = w then .isTrue (by rw [h])
    else .isFalse (by intro hx; injection hx; contradiction)
  | .ok _, .error _ => .isFalse (by intro hx; exact Except.noConfusion hx)
  | .error _, .ok _ => .isFalse (by intro hx; exact Except.noConfusion hx)

/-- Constant `CONCURRENT_TASKS` from `src/issue_delivery_queue.rs`. -/
def CONCURRENT_TASKS : Nat := 10

/-- Constant `MAX_RETRY_ATTEMPTS` from `src/issue_delivery_queue.rs`. -/
def MAX_RETRY_ATTEMPTS : Nat := 5

/-- Constant `RETRY_BACKOFF_MINUTES` from `src/issue_delivery_queue.rs`. -/
def RETRY_BACKOFF_MINUTES : Int := 5

/-- Key match for a delivery-queue row. -/
def QueueRow.keyIs (r : QueueRow) (issue_id : Nat) (email : String) : Bool :=
  r.newsletter_issue_id == issue_id && r.subscriber_email == email

/-- Key match for a dead-letter row. -/
def DLQRow.keyIs (r : DLQRow) (issue_id : Nat) (email : String) : Bool :=
  r.newsletter_issue_id == issue_id && r.subscriber_email == email

/-- Query `SELECT ... FROM issue_delivery_queue WHERE newsletter_issue_id = $1 AND
subscriber_email = $2` (used by `get_attempt_count` / `get_last_attempted`). -/
def getQueueRow (db : DB) (issue_id : Nat) (email : String) : Option QueueRow :=
  db.issue_delivery_queue.find? (fun r => r.keyIs issue_id email)

/-- Function `get_issue`: `SELECT title, text_content, html_content FROM
newsletter_issues WHERE newsletter_issue_id = $1`. -/
def getIssue (db : DB) (issue_id : Nat) : Option IssueRow :=
  db.newsletter_issues.find? (fun r => r.newsletter_issue_id == issue_id)

/-- Dead-letter lookup by primary key. -/
def getDLQRow (db : DB) (issue_id : Nat) (email : String) : Option DLQRow :=
  db.dead_letter_queue.find? (fun r => r.keyIs issue_id email)

/-- A single SQL write of the delivery worker. -/
inductive QWrite where
  | deleteTask (issue_id : Nat) (email : String)
  | upsertDLQ (issue_id : Nat) (email : String) (attempt_count : Nat)
      (last_error : String) (failed_at : Int)
  | updateRetry (issue_id : Nat) (email : String) (attempt_count : Nat)
      (last_attempted_at : Int) (error_message : String)
deriving DecidableEq, Repr

/-- Execute one worker write against the database.
`deleteTask` is the `DELETE FROM issue_delivery_queue` of `delete_task`;
`upsertDLQ` is the `INSERT ... ON CONFLICT ... DO UPDATE` of
`move_to_dead_letter_queue`; `updateRetry` is the `UPDATE
issue_delivery_queue` of `update_retry_tracking`. -/
def applyQWrite (db : DB) : QWrite → DB
  | .deleteTask issue_id email =>
      { db with issue_delivery_queue :=
          db.issue_delivery_queue.filter (fun r => !(r.keyIs issue_id email)) }
  | .upsertDLQ issue_id email attempt_count last_error failed_at =>
      let row : DLQRow := ⟨issue_id, email, attempt_count, last_error, failed_at⟩
      if db.dead_letter_queue.any (fun r => r.keyIs issue_id email) then
        { db with dead_letter_queue :=
            db.dead_letter_queue.map (fun r =>
              if r.keyIs issue_id email then
                { r with attempt_count := attempt_count, last_error := last_error,
                         failed_at := failed_at }
              else r) }
      else
        { db with dead_letter_queue := db.dead_letter_queue ++ [row] }
  | .updateRetry issue_id email attempt_count last_attempted_at error_message =>
      { db with issue_delivery_queue :=
          db.issue_delivery_queue.map (fun r =>
            if r.keyIs issue_id email then
              { r with attempt_count := attempt_count,
                       last_attempted_at := some last_attempted_at,
                       error_message := some error_message }
            else r) }

/-- The backoff wait in seconds computed by `execute_single_task`:
`RETRY_BACKOFF_MINUTES * 60 * 2_i64.pow(attempt_count).min(32)`. -/
def backoffWaitSecs (attempt_count : Nat) : Int :=
  RETRY_BACKOFF_MINUTES * 60 * min ((2 : Int) ^ attempt_count) 32

/-- The backoff gate of `execute_single_task`: skip when `last_attempted_at`
is set and `now - last_attempted < backoff_duration`. -/
def backoffSkip (row : QueueRow) (now : Int) : Bool :=
  match row.last_attempted_at with
  | some last => decide (now - last < backoffWaitSecs row.attempt_count)
  | none => false

/-- Result of one `execute_single_task` run: the committed database, the
provider call made (if any), the writes issued on the pool connection, the
writes issued inside the lease transaction, and whether that lease
transaction was committed (`false` = rolled back). -/
structure TaskResult where
  db : DB
  sentTo : Option (Nat × String)
  poolWrites : List QWrite
  leaseWrites : List QWrite
  leaseCommitted : Bool
deriving DecidableEq, Repr

/-- Function `execute_single_task` from `src/issue_delivery_queue.rs`, for one leased
row.  `parseResult` stands for `SubscriberEmail::parse(email)` (whose source
file is not part of the embedded tree; only its outcome matters here) and
`sendResult` for the provider call `email_client.send_email`.
The function follows the source order: read `attempt_count` and
`last_attempted_at` (`fetch_one`, so a missing row is an error), apply the
backoff gate (rollback, no change), then on parse failure dead-letter on the
pool with the unincremented count and delete inside the lease transaction;
otherwise load the issue, send, and on failure either dead-letter
(`new_attempt ≥ MAX_RETRY_ATTEMPTS`) or write retry bookkeeping on the pool
and roll the lease transaction back. -/
def execute_single_task (db : DB) (now : Int) (issue_id : Nat) (email : String)
    (parseResult : Except String Unit) (sendResult : Except String Unit) :
    Except String TaskResult :=
  match getQueueRow db issue_id email with
  | none => .error "task row not found"
  | some row =>
    if backoffSkip row now then
      .ok ⟨db, none, [], [], false⟩
    else
      match parseResult with
      | .error e =>
        let w1 := QWrite.upsertDLQ issue_id email row.attempt_count e now
        let w2 := QWrite.deleteTask issue_id email
        .ok ⟨applyQWrite (applyQWrite db w1) w2, none, [w1], [w2], true⟩
      | .ok _ =>
        match getIssue db issue_id with
        | none => .error "issue not found"
        | some _ =>
          match sendResult with
          | .ok _ =>
            let w := QWrite.deleteTask issue_id email
            .ok ⟨applyQWrite db w, some (issue_id, email), [], [w], true⟩
          | .error error_message =>
            let new_attempt_count := row.attempt_count + 1
            if MAX_RETRY_ATTEMPTS ≤ new_attempt_count then
              let w1 := QWrite.upsertDLQ issue_id email new_attempt_count
                  error_message now
              let w2 := QWrite.deleteTask issue_id email
              .ok ⟨applyQWrite (applyQWrite db w1) w2, some (issue_id, email),
                   [w1], [w2], true⟩
            else
              let w := QWrite.updateRetry issue_id email new_attempt_count now
                  error_message
              .ok ⟨applyQWrite db w, some (issue_id, email), [w], [], false⟩

/-! ## Idempotency store (`src/idempotency/persistence.rs`) -/

/-- Serialization `status.as_u16() as i16`: the status code as stored in the
`smallint` column. -/
def statusAsI16 (s : Nat) : Int :=
  let u := s % 65536
  if u < 32768 then (u : Int) else (u : Int) - 65536

/-- Reconstruction of a status code on read:
`StatusCode::from_u16(r.response_status_code.try_into()?)?` — the
`i16 → u16` conversion fails on negatives, `from_u16` outside `100..=999`. -/
def statusFromI16 (c : Int) : Except String Nat :=
  if c < 0 then .error "out of range integral type conversion"
  else if 100 ≤ c.toNat ∧ c.toNat ≤ 999 then .ok c.toNat
  else .error "invalid status code"

/-- Idempotency-record lookup by the `(user_id, idempotency_key)` key. -/
def getIdemRow (db : DB) (user_id : Nat) (key : String) : Option IdemRow :=
  db.idempotency.find? (fun r => r.user_id == user_id && r.idempotency_key == key)

/-- Function `get_saved_response`: fetch the idempotency row; absent row gives
`none`.  The query asserts the response columns non-null
(`as "response_status_code!"` etc.), so a reservation row whose response
columns are still NULL makes the decode fail with an error.  On a completed
row the response is rebuilt: status via `statusFromI16`, one `builder.header`
per stored pair in order, body from the stored bytes. -/
def get_saved_response (db : DB) (key : String) (user_id : Nat) :
    Except String (Option HttpResponse) :=
  match getIdemRow db user_id key with
  | none => .ok none
  | some r =>
    match r.response with
    | none => .error "error occurred while decoding column"
    | some resp =>
      match statusFromI16 resp.response_status_code with
      | .error e => .error e
      | .ok status =>
        .ok (some ⟨status, resp.response_headers.map (fun hp => (hp.name, hp.value)),
                   resp.response_body⟩)

/-- One pending write of a publish transaction. -/
inductive IWrite where
  | insertReservation (user_id : Nat) (key : String) (created_at : Int)
  | insertIssue (row : IssueRow)
  | insertQueueRows (rows : List QueueRow)
  | saveResp (user_id : Nat) (key : String) (resp : SavedResp)
deriving DecidableEq, Repr

/-- Apply one pending publish write at commit time.
`insertReservation` is the `INSERT INTO idempotency ... ON CONFLICT DO
NOTHING`; `insertIssue` the `INSERT INTO newsletter_issues`;
`insertQueueRows` the `INSERT INTO issue_delivery_queue ... SELECT`;
`saveResp` the `UPDATE idempotency SET response_* ...` of `save_response`. -/
def applyIWrite (db : DB) : IWrite → DB
  | .insertReservation user_id key created_at =>
      if db.idempotency.any (fun r => r.user_id == user_id && r.idempotency_key == key) then
        db
      else
        { db with idempotency := db.idempotency ++ [⟨user_id, key, created_at, none⟩] }
  | .insertIssue row =>
      { db with newsletter_issues := db.newsletter_issues ++ [row] }
  | .insertQueueRows rows =>
      { db with issue_delivery_queue := db.issue_delivery_queue ++ rows }
  | .saveResp user_id key resp =>
      { db with idempotency := db.idempotency.map (fun r =>
          if r.user_id == user_id && r.idempotency_key == key then
            { r with response := some resp }
          else r) }

/-- Commit a publish transaction: fold its pending writes into the database. -/
def commitTxn (db : DB) (txn : List IWrite) : DB :=
  txn.foldl applyIWrite db

/-- The `NextAction` returned by `try_processing`: `startProcessing` carries the
still-open transaction (its pending writes), `returnSavedResponse` the
replayed response. -/
inductive NextAction where
  | startProcessing (txn : List IWrite)
  | returnSavedResponse (resp : HttpResponse)
deriving DecidableEq, Repr

/-- Function `try_processing`: begin a transaction and run the reservation insert with
`ON CONFLICT DO NOTHING`; it affects one row exactly when no
`(user_id, idempotency_key)` row exists yet.  On success the open
transaction (holding the pending reservation insert) is returned as
`startProcessing`; otherwise the transaction is dropped and the existing
record read from the pool — a saved response is replayed, a still-null
response surfaces as an error. -/
def try_processing (db : DB) (key : String) (user_id : Nat) (now : Int) :
    Except String NextAction :=
  let n_inserted_rows : Nat :=
    if db.idempotency.any (fun r => r.user_id == user_id && r.idempotency_key == key)
    then 0 else 1
  if 0 < n_inserted_rows then
    .ok (.startProcessing [.insertReservation user_id key now])
  else
    match get_saved_response db key user_id with
    | .error e => .error e
    | .ok none => .error "No saved response found"
    | .ok (some saved_response) => .ok (.returnSavedResponse saved_response)

/-- Function `save_response`: materialize the body, serialize the status as `i16` and
the headers as an ordered `header_pair` list, stage the `UPDATE idempotency`
in the caller's transaction, commit the whole transaction and return the
response rebuilt from the same parts. -/
def save_response (db : DB) (txn : List IWrite) (key : String) (user_id : Nat)
    (http_response : HttpResponse) : HttpResponse × DB :=
  let body := http_response.body
  let status_code := statusAsI16 http_response.status
  let headers : List HeaderPairRecord :=
    http_response.headers.map (fun p => ⟨p.1, p.2⟩)
  let txn := txn ++ [.saveResp user_id key ⟨status_code, headers, body⟩]
  let db := commitTxn db txn
  (⟨http_response.status, http_response.headers, body⟩, db)

/-! ## Publish command (`src/routes/admin/newsletters/post.rs`) -/

/-- UTF-8 bytes of a string (all strings used here are ASCII). -/
def strBytes (s : String) : List Nat :=
  s.data.map Char.toNat

/-- Helper `see_other(location)`: `Redirect::to` — a 303 response with a single
`location` header and an empty body. -/
def see_other (location : String) : HttpResponse :=
  ⟨303, [("location", strBytes location)], []⟩

/-- The serialized form of the `see_other "/admin/newsletters"` redirect as
`save_response` stores it. -/
def savedRedirectRecord : SavedResp :=
  ⟨statusAsI16 303, [⟨"location", strBytes "/admin/newsletters"⟩], []⟩

/-- The queue fan-out of `enequeue_delivery_tasks`:
`INSERT INTO issue_delivery_queue (newsletter_issue_id, subscriber_email)
SELECT $1, email FROM subscriptions WHERE status = 'confirmed'` —
one fresh row (defaults: `attempt_count = 0`, null timestamps) per
currently-confirmed subscriber. -/
def fanoutRows (db : DB) (newsletter_issue_id : Nat) : List QueueRow :=
  (db.subscriptions.filter (fun s => s.status == "confirmed")).map
    (fun s => ⟨newsletter_issue_id, s.email, 0, none, none⟩)

/-- Function `enequeue_delivery_tasks` run directly against the database (the
worker-facing view: the transaction it runs in is committed by the caller). -/
def enequeue_delivery_tasks (db : DB) (newsletter_issue_id : Nat) : DB :=
  { db with issue_delivery_queue := db.issue_delivery_queue ++ fanoutRows db newsletter_issue_id }

/-- Errors surfaced by the publish endpoint (`e400` / `e500` of
`src/utils.rs`). -/
inductive PubErr where
  | e400 (msg : String)
  | e500 (msg : String)
deriving DecidableEq, Repr

/-- Handler `publish_newsletter`: run `try_processing`; replay the saved response on
`returnSavedResponse`; otherwise stage `insert_newsletter_issue` (fresh id)
and `enequeue_delivery_tasks` in the open transaction, build the
`see_other("/admin/newsletters")` redirect and commit everything through
`save_response`.  `fresh_issue_id` stands for `Uuid::new_v4()` and `now` for
the clock. -/
def publish_newsletter (db : DB) (user_id : Nat) (key : String)
    (title text html : String) (fresh_issue_id : Nat) (now : Int) :
    Except PubErr (HttpResponse × DB) :=
  match try_processing db key user_id now with
  | .error e => .error (.e500 e)
  | .ok (.returnSavedResponse saved_response) => .ok (saved_response, db)
  | .ok (.startProcessing txn) =>
    let issue_id := fresh_issue_id
    let txn := txn ++ [.insertIssue ⟨issue_id, title, text, html, now⟩]
    let txn := txn ++ [.insertQueueRows (fanoutRows db issue_id)]
    let response := see_other "/admin/newsletters"
    let (response, db) := save_response db txn key user_id response
    .ok (response, db)

/-! ## Confirmation endpoint (`src/routes/subscriptions_confirm.rs`) -/

/-- Parser `SubscriptionToken::parse` (`src/domain/subscription_token.rs`): exactly
25 bytes long and all characters ASCII alphanumeric. -/
def SubscriptionToken.parse (s : String) : Except String String :=
  let is_valid_length := s.utf8ByteSize == 25
  let is_alphanumeric := s.data.all (fun c => c.isAlphanum && c.toNat < 128)
  if !is_valid_length then
    .error "Subscription token must be exactly 25 characters long"
  else if !is_alphanumeric then
    .error "Subscription token must contain only alphanumeric characters"
  else
    .ok s

/-- Function `get_subscriber_id_from_token`: `SELECT subscriber_id FROM
subscription_tokens WHERE subscription_token = $1` (`fetch_optional`). -/
def get_subscriber_id_from_token (db : DB) (subscription_token : String) :
    Option Nat :=
  (db.subscription_tokens.find? (fun r => r.subscription_token == subscription_token)).map
    (fun r => r.subscriber_id)

/-- Function `get_subscriber_status`: `SELECT status FROM subscriptions WHERE id = $1`
(`fetch_optional`). -/
def get_subscriber_status (db : DB) (subscriber_id : Nat) : Option String :=
  (db.subscriptions.find? (fun r => r.id == subscriber_id)).map (fun r => r.status)

/-- Function `confirm_subscriber`: read the current status; `"confirmed"` is an
idempotent no-op, any other present status is updated to `"confirmed"`, a
missing subscriber row is `sqlx::Error::RowNotFound`. -/
def confirm_subscriber (db : DB) (subscriber_id : Nat) : Except String DB :=
  match get_subscriber_status db subscriber_id with
  | some status =>
    if status == "confirmed" then
      .ok db
    else
      .ok { db with subscriptions := db.subscriptions.map (fun r =>
              if r.id == subscriber_id then { r with status := "confirmed" } else r) }
  | none => .error "RowNotFound"

/-- The `confirm` handler: validate the token shape (400 before any database
access on failure), look the token up (missing → 400), then run
`confirm_subscriber` (success → 200, error → 500).  Returns the HTTP status
code and the resulting database. -/
def confirm (db : DB) (subscription_token : String) : Nat × DB :=
  match SubscriptionToken.parse subscription_token with
  | .error _ => (400, db)
  | .ok token =>
    match get_subscriber_id_from_token db token with
    | none => (400, db)
    | some subscriber_id =>
      match confirm_subscriber db subscriber_id with
      | .ok db1 => (200, db1)
      | .error _ => (500, db)

/-! ## Subscribe command (`src/routes/subscriptions.rs`) -/

/-- Function `get_subscriber_by_email`: `SELECT id, status FROM subscriptions WHERE
email = $1` (`fetch_optional`). -/
def get_subscriber_by_email (db : DB) (email : String) : Option (Nat × String) :=
  (db.subscriptions.find? (fun r => r.email == email)).map (fun r => (r.id, r.status))

/-- Function `insert_subscriber`: `INSERT INTO subscriptions (id, email, name,
subscribed_at, status) VALUES (..., 'pending_confirmation')`. -/
def insert_subscriber (db : DB) (subscriber_id : Nat) (email name : String)
    (now : Int) : DB :=
  { db with subscriptions :=
      db.subscriptions ++ [⟨subscriber_id, email, name, now, "pending_confirmation"⟩] }

/-- Function `store_token`: `INSERT INTO subscription_tokens (subscription_token,
subscriber_id) VALUES ($1, $2)`. -/
def store_token (db : DB) (subscriber_id : Nat) (subscription_token : String) : DB :=
  { db with subscription_tokens :=
      db.subscription_tokens ++ [⟨subscription_token, subscriber_id⟩] }

/-- The `subscribe` handler after validation (`name` and `email` are the
already-parsed value types; `fresh_id` stands for `Uuid::new_v4()` and
`fresh_token` for `generate_subscription_token()`).  One transaction:
an existing confirmed subscriber commits a no-op (courtesy email only);
an existing pending subscriber gets one new token; a new address gets a
subscriber row with `status = 'pending_confirmation'` plus a token.
All branches answer 200. -/
def subscribe (db : DB) (email name : String) (fresh_id : Nat)
    (fresh_token : String) (now : Int) : Nat × DB :=
  match get_subscriber_by_email db email with
  | some (subscriber_id, status) =>
    if status == "confirmed" then
      (200, db)
    else
      (200, store_token db subscriber_id fresh_token)
  | none =>
    let subscriber_id := fresh_id
    let db := insert_subscriber db subscriber_id email name now
    let db := store_token db subscriber_id fresh_token
    (200, db)

/-! ## Worker step sequences -/

/-- One system step that touches the delivery queue: a publish fan-out for a
given issue, or one leased-task execution with its environment (clock,
parse and provider outcomes). -/
inductive WStep where
  | enqueue (issue_id : Nat)
  | task (now : Int) (issue_id : Nat) (email : String)
      (parseResult : Except String Unit) (sendResult : Except String Unit)
deriving Repr

/-- Database effect of one step (a failed task leaves the database
unchanged: the lease transaction is dropped and rolled back). -/
def applyWStep (db : DB) : WStep → DB
  | .enqueue issue_id => enequeue_delivery_tasks db issue_id
  | .task now issue_id email parseResult sendResult =>
    match execute_single_task db now issue_id email parseResult sendResult with
    | .ok r => r.db
    | .error _ => db

/-- The provider call (if any) made by one step. -/
def stepSend (db : DB) : WStep → Option (Nat × String)
  | .enqueue _ => none
  | .task now issue_id email parseResult sendResult =>
    match execute_single_task db now issue_id email parseResult sendResult with
    | .ok r => r.sentTo
    | .error _ => none

/-- Run a sequence of steps, collecting the provider calls made. -/
def runSteps : DB → List WStep → DB × List (Nat × String)
  | db, [] => (db, [])
  | db, s :: rest =>
    let sent := stepSend db s
    let rec' := runSteps (applyWStep db s) rest
    (rec'.1, sent.toList ++ rec'.2)

/-! ## Shared list lemmas -/

theorem find?_append_of_none {α : Type} (p : α → Bool) (l₁ l₂ : List α)
    (h : l₁.find? p = none) : (l₁ ++ l₂).find? p = l₂.find? p := by
  induction l₁ with
  | nil => rfl
  | cons a l ih =>
    rw [List.find?_cons] at h
    cases hpa : p a with
    | true => simp [hpa] at h
    | false =>
      rw [hpa] at h
      simp only [List.cons_append, List.find?_cons, hpa]
      exact ih h

theorem find?_map_update {α : Type} (p : α → Bool) (f : α → α)
    (hf : ∀ x, p (f x) = p x) (l : List α) (x : α) (h : l.find? p = some x) :
    (l.map (fun r => if p r then f r else r)).find? p = some (f x) := by
  induction l with
  | nil => simp [List.find?] at h
  | cons a l ih =>
    rw [List.find?_cons] at h
    cases hpa : p a with
    | true =>
      rw [hpa] at h
      injection h with h
      subst h
      simp only [List.map_cons, hpa, if_true, List.find?_cons, hf, hpa]
    | false =>
      rw [hpa] at h
      simp only [List.map_cons, List.find?_cons, hpa, Bool.false_eq_true, if_false]
      exact ih h

theorem map_update_of_no_match {α : Type} (p : α → Bool) (f : α → α)
    (l : List α) (h : ∀ x ∈ l, p x = false) :
    l.map (fun r => if p r then f r else r) = l := by
  induction l with
  | nil => rfl
  | cons a l ih =>
    simp only [List.map_cons, h a (List.mem_cons_self a l), Bool.false_eq_true,
      if_false]
    rw [ih (fun x hx => h x (List.mem_cons_of_mem a hx))]

theorem find?_filter_not {α : Type} (p : α → Bool) (l : List α) :
    (l.filter (fun r => !(p r))).find? p = none := by
  induction l with
  | nil => rfl
  | cons a l ih =>
    by_cases hpa : p a = true
    · simp [List.filter_cons, hpa, ih]
    · simp only [Bool.not_eq_true] at hpa
      simp [List.filter_cons, hpa, List.find?_cons, ih]

/-! ## C4: the attempt-count invariant of the delivery queue -/

/-- Every row of the delivery queue has spent strictly fewer than
`MAX_RETRY_ATTEMPTS` attempts. -/
def queueInv (db : DB) : Prop :=
  ∀ r ∈ db.issue_delivery_queue, r.attempt_count < MAX_RETRY_ATTEMPTS

theorem queueInv_applyQWrite_delete (db : DB) (i : Nat) (e : String)
    (h : queueInv db) : queueInv (applyQWrite db (.deleteTask i e)) := by
  intro r hr
  simp only [applyQWrite] at hr
  exact h r (List.mem_filter.mp hr).1

theorem queueInv_applyQWrite_upsert (db : DB) (i : Nat) (e : String)
    (ac : Nat) (err : String) (t : Int) (h : queueInv db) :
    queueInv (applyQWrite db (.upsertDLQ i e ac err t)) := by
  intro r hr
  simp only [applyQWrite] at hr
  split at hr <;> exact h r hr

theorem queueInv_applyQWrite_update (db : DB) (i : Nat) (e : String)
    (ac : Nat) (t : Int) (err : String) (hac : ac < MAX_RETRY_ATTEMPTS)
    (h : queueInv db) : queueInv (applyQWrite db (.updateRetry i e ac t err)) := by
  intro r hr
  simp only [applyQWrite, List.mem_map] at hr
  obtain ⟨x, hx, hfx⟩ := hr
  by_cases hk : x.keyIs i e = true
  · rw [if_pos hk] at hfx
    subst hfx
    exact hac
  · rw [if_neg hk] at hfx
    subst hfx
    exact h x hx

theorem queueInv_execute_single_task (db : DB) (now : Int) (i : Nat) (e : String)
    (pr sr : Except String Unit) (h : queueInv db) (res : TaskResult)
    (hres : execute_single_task db now i e pr sr = .ok res) : queueInv res.db := by
  unfold execute_single_task at hres
  split at hres
  · exact absurd hres (by simp)
  next row hq =>
    split at hres
    · injection hres with hres
      subst hres
      exact h
    · split at hres
      next perr =>
        injection hres with hres
        subst hres
        exact queueInv_applyQWrite_delete _ i e
          (queueInv_applyQWrite_upsert _ i e _ _ _ h)
      next =>
        split at hres
        · exact absurd hres (by simp)
        next iss hi =>
          split at hres
          next =>
            injection hres with hres
            subst hres
            exact queueInv_applyQWrite_delete _ i e h
          next msg =>
            dsimp only at hres
            split at hres
            next hm =>
              injection hres with hres
              subst hres
              exact queueInv_applyQWrite_delete _ i e
                (queueInv_applyQWrite_upsert _ i e _ _ _ h)
            next hm =>
              injection hres with hres
              subst hres
              exact queueInv_applyQWrite_update _ i e _ _ _
                (Nat.lt_of_not_le hm) h

theorem queueInv_enqueue (db : DB) (i : Nat) (h : queueInv db) :
    queueInv (enequeue_delivery_tasks db i) := by
  intro r hr
  simp only [enequeue_delivery_tasks, List.mem_append] at hr
  cases hr with
  | inl hr => exact h r hr
  | inr hr =>
    simp only [fanoutRows, List.mem_map] at hr
    obtain ⟨s, _, hs⟩ := hr
    subst hs
    simp [MAX_RETRY_ATTEMPTS]

theorem queueInv_applyWStep (db : DB) (s : WStep) (h : queueInv db) :
    queueInv (applyWStep db s) := by
  cases s with
  | enqueue i => exact queueInv_enqueue db i h
  | task now i e pr sr =>
    simp only [applyWStep]
    cases hres : execute_single_task db now i e pr sr with
    | ok res => exact queueInv_execute_single_task db now i e pr sr h res hres
    | error _ => exact h

/-- Claim C4 — starting from any database whose delivery-queue rows respect
the retry budget (in particular the empty queue, or any queue just filled
by `enequeue_delivery_tasks`, whose rows default to `attempt_count = 0`),
after any sequence of worker steps every remaining queue row satisfies
`0 ≤ attempt_count ≤ MAX_RETRY_ATTEMPTS`, and no row with
`attempt_count ≥ MAX_RETRY_ATTEMPTS` remains in the queue. -/
theorem C4_attempt_count_invariant (db : DB) (steps : List WStep)
    (h : queueInv db) :
    ∀ r ∈ (steps.foldl applyWStep db).issue_delivery_queue,
      r.attempt_count ≤ MAX_RETRY_ATTEMPTS ∧
      ¬ MAX_RETRY_ATTEMPTS ≤ r.attempt_count := by
  have hinv : queueInv (steps.foldl applyWStep db) := by
    induction steps generalizing db with
    | nil => exact h
    | cons s rest ih => exact ih (applyWStep db s) (queueInv_applyWStep db s h)
  intro r hr
  exact ⟨Nat.le_of_lt (hinv r hr), Nat.not_le_of_lt (hinv r hr)⟩

/-- Witness for C4 at a concrete database and step list: after an enqueue
and one failed send, the single remaining row respects the retry budget. -/
theorem C4_attempt_count_invariant_witness :
    ([WStep.enqueue 5,
      WStep.task 1000 5 "a@b.com" (.ok ()) (.error "500")].foldl applyWStep
        ⟨[⟨1, "a@b.com", "A", 0, "confirmed"⟩], [], [⟨5, "T", "X", "H", 0⟩],
         [], [], []⟩).issue_delivery_queue =
      [⟨5, "a@b.com", 1, some 1000, some "500"⟩] ∧
    (⟨5, "a@b.com", 1, some 1000, some "500"⟩ : QueueRow).attempt_count ≤
      MAX_RETRY_ATTEMPTS ∧
    ¬ MAX_RETRY_ATTEMPTS ≤
      (⟨5, "a@b.com", 1, some 1000, some "500"⟩ : QueueRow).attempt_count := by
  have h := C4_attempt_count_invariant
    ⟨[⟨1, "a@b.com", "A", 0, "confirmed"⟩], [], [⟨5, "T", "X", "H", 0⟩],
     [], [], []⟩
    [WStep.enqueue 5, WStep.task 1000 5 "a@b.com" (.ok ()) (.error "500")]
    (by intro r hr; simp at hr)
    ⟨5, "a@b.com", 1, some 1000, some "500"⟩ (by decide)
  exact ⟨by decide, h.1, h.2⟩

/-! ## Effects of single worker writes -/

theorem getQueueRow_delete (db : DB) (i : Nat) (e : String) :
    getQueueRow (applyQWrite db (.deleteTask i e)) i e = none := by
  simp only [applyQWrite, getQueueRow]
  exact find?_filter_not _ _

theorem getQueueRow_updateRetry (db : DB) (i : Nat) (e : String) (ac : Nat)
    (t : Int) (err : String) (row : QueueRow)
    (hrow : getQueueRow db i e = some row) :
    getQueueRow (applyQWrite db (.updateRetry i e ac t err)) i e =
      some { row with attempt_count := ac, last_attempted_at := some t,
                      error_message := some err } := by
  simp only [applyQWrite, getQueueRow] at hrow ⊢
  exact find?_map_update (fun r => r.keyIs i e)
    (fun r => { r with attempt_count := ac, last_attempted_at := some t,
                       error_message := some err })
    (fun x => rfl) _ row hrow

theorem getDLQRow_upsert (db : DB) (i : Nat) (e : String) (ac : Nat)
    (err : String) (t : Int) :
    getDLQRow (applyQWrite db (.upsertDLQ i e ac err t)) i e =
      some ⟨i, e, ac, err, t⟩ := by
  simp only [applyQWrite, getDLQRow]
  by_cases hany : db.dead_letter_queue.any (fun r => r.keyIs i e) = true
  · rw [if_pos hany]
    dsimp only
    have hsome : (db.dead_letter_queue.find? (fun r => r.keyIs i e)).isSome := by
      rw [List.find?_isSome]
      obtain ⟨x, hx, hpx⟩ := List.any_eq_true.mp hany
      exact ⟨x, hx, hpx⟩
    obtain ⟨y, hy⟩ := Option.isSome_iff_exists.mp hsome
    rw [find?_map_update (fun r => r.keyIs i e)
      (fun r => { r with attempt_count := ac, last_error := err, failed_at := t })
      (fun x => rfl) _ y hy]
    have hk := List.find?_some hy
    simp only [DLQRow.keyIs, Bool.and_eq_true, beq_iff_eq] at hk
    obtain ⟨h1, h2⟩ := hk
    cases y
    simp_all
  · rw [if_neg hany]
    have hnone : db.dead_letter_queue.find? (fun r => r.keyIs i e) = none := by
      rw [List.find?_eq_none]
      intro x hx hpx
      exact hany (List.any_eq_true.mpr ⟨x, hx, hpx⟩)
    rw [find?_append_of_none _ _ _ hnone]
    simp [List.find?, DLQRow.keyIs]

/-! ## C3: provider-failure handling of the worker -/

/-- Claim C3 — when the provider send for a leased task fails, the worker sets
`new_attempt = attempt_count + 1`; at `new_attempt ≥ MAX_RETRY_ATTEMPTS` it
upserts a dead-letter row carrying `attempt_count = new_attempt` and
`last_error` = the provider error, deletes the queue row within the lease
transaction and commits it; below the threshold it updates `attempt_count`,
`last_attempted_at = now` and `error_message` on the queue row through the
pool connection (no lease-transaction write) and rolls the lease
transaction back, leaving the row in the queue. -/
theorem C3_failure_retry_or_dead_letter (db : DB) (now : Int) (i : Nat)
    (e : String) (row : QueueRow) (iss : IssueRow) (msg : String)
    (hrow : getQueueRow db i e = some row)
    (hgate : backoffSkip row now = false)
    (hiss : getIssue db i = some iss) :
    ∃ res, execute_single_task db now i e (.ok ()) (.error msg) = .ok res ∧
      (MAX_RETRY_ATTEMPTS ≤ row.attempt_count + 1 →
        getDLQRow res.db i e = some ⟨i, e, row.attempt_count + 1, msg, now⟩ ∧
        getQueueRow res.db i e = none ∧
        res.leaseWrites = [.deleteTask i e] ∧
        res.leaseCommitted = true) ∧
      (row.attempt_count + 1 < MAX_RETRY_ATTEMPTS →
        getQueueRow res.db i e =
          some { row with attempt_count := row.attempt_count + 1,
                          last_attempted_at := some now,
                          error_message := some msg } ∧
        res.poolWrites = [.updateRetry i e (row.attempt_count + 1) now msg] ∧
        res.leaseWrites = [] ∧
        res.leaseCommitted = false ∧
        res.db.dead_letter_queue = db.dead_letter_queue) := by
  by_cases hm : MAX_RETRY_ATTEMPTS ≤ row.attempt_count + 1
  · refine ⟨⟨applyQWrite (applyQWrite db
        (.upsertDLQ i e (row.attempt_count + 1) msg now)) (.deleteTask i e),
        some (i, e), [.upsertDLQ i e (row.attempt_count + 1) msg now],
        [.deleteTask i e], true⟩, ?_, ?_, ?_⟩
    · simp [execute_single_task, hrow, hiss, hgate, hm]
    · intro _
      refine ⟨?_, getQueueRow_delete _ i e, rfl, rfl⟩
      have : getDLQRow (applyQWrite db
          (.upsertDLQ i e (row.attempt_count + 1) msg now)) i e =
          some ⟨i, e, row.attempt_count + 1, msg, now⟩ :=
        getDLQRow_upsert db i e _ msg now
      simpa [applyQWrite, getDLQRow] using this
    · intro hlt
      exact absurd hm (Nat.not_le_of_lt hlt)
  · refine ⟨⟨applyQWrite db (.updateRetry i e (row.attempt_count + 1) now msg),
        some (i, e), [.updateRetry i e (row.attempt_count + 1) now msg],
        [], false⟩, ?_, ?_, ?_⟩
    · simp [execute_single_task, hrow, hiss, hgate, hm]
    · intro hle
      exact absurd hle hm
    · intro _
      exact ⟨getQueueRow_updateRetry db i e _ now msg row hrow, rfl, rfl, rfl, rfl⟩

/-- Witness for C3 at a concrete leased row with `attempt_count = 4`: the
fifth failure dead-letters the task. -/
theorem C3_failure_retry_or_dead_letter_witness :
    execute_single_task
        ⟨[], [], [⟨5, "T", "X", "H", 0⟩], [⟨5, "a@b.com", 4, some 0, none⟩], [], []⟩
        100000 5 "a@b.com" (.ok ()) (.error "500") =
      .ok ⟨⟨[], [], [⟨5, "T", "X", "H", 0⟩], [], [],
            [⟨5, "a@b.com", 5, "500", 100000⟩]⟩,
           some (5, "a@b.com"), [.upsertDLQ 5 "a@b.com" 5 "500" 100000],
           [.deleteTask 5 "a@b.com"], true⟩ ∧
    getDLQRow ⟨[], [], [⟨5, "T", "X", "H", 0⟩], [], [],
        [⟨5, "a@b.com", 5, "500", 100000⟩]⟩ 5 "a@b.com" =
      some ⟨5, "a@b.com", 5, "500", 100000⟩ ∧
    getQueueRow ⟨[], [], [⟨5, "T", "X", "H", 0⟩], [], [],
        [⟨5, "a@b.com", 5, "500", 100000⟩]⟩ 5 "a@b.com" = none := by
  obtain ⟨res, h1, hdl, _⟩ := C3_failure_retry_or_dead_letter
    ⟨[], [], [⟨5, "T", "X", "H", 0⟩], [⟨5, "a@b.com", 4, some 0, none⟩], [], []⟩
    100000 5 "a@b.com" ⟨5, "a@b.com", 4, some 0, none⟩ ⟨5, "T", "X", "H", 0⟩ "500"
    (by decide) (by decide) (by decide)
  have hq := hdl (by decide)
  have hres : res = ⟨⟨[], [], [⟨5, "T", "X", "H", 0⟩], [], [],
      [⟨5, "a@b.com", 5, "500", 100000⟩]⟩,
      some (5, "a@b.com"), [.upsertDLQ 5 "a@b.com" 5 "500" 100000],
      [.deleteTask 5 "a@b.com"], true⟩ :=
    Except.ok.inj (h1.symm.trans (by decide))
  rw [hres] at h1 hq
  exact ⟨h1, hq.1, hq.2.1⟩

/-! ## C10: non-retryable invalid stored email -/

/-- Claim C10 — when the stored `subscriber_email` of a leased row fails
`SubscriberEmail::parse`, the worker dead-letters it immediately with the
attempt count read from the row (not incremented) and the parse error as
`last_error`; the dead-letter upsert is issued on the pool outside the
lease transaction, only the queue-row deletion is a lease-transaction
write, the lease transaction commits, and no provider call is made. -/
theorem C10_invalid_email_dead_letter (db : DB) (now : Int) (i : Nat)
    (e : String) (row : QueueRow) (perr : String) (sr : Except String Unit)
    (hrow : getQueueRow db i e = some row)
    (hgate : backoffSkip row now = false) :
    ∃ res, execute_single_task db now i e (.error perr) sr = .ok res ∧
      getDLQRow res.db i e = some ⟨i, e, row.attempt_count, perr, now⟩ ∧
      getQueueRow res.db i e = none ∧
      res.sentTo = none ∧
      res.poolWrites = [.upsertDLQ i e row.attempt_count perr now] ∧
      res.leaseWrites = [.deleteTask i e] ∧
      res.leaseCommitted = true := by
  refine ⟨⟨applyQWrite (applyQWrite db
      (.upsertDLQ i e row.attempt_count perr now)) (.deleteTask i e),
      none, [.upsertDLQ i e row.attempt_count perr now],
      [.deleteTask i e], true⟩, ?_, ?_, getQueueRow_delete _ i e, rfl, rfl, rfl, rfl⟩
  · simp [execute_single_task, hrow, hgate]
  · have := getDLQRow_upsert db i e row.attempt_count perr now
    simpa [applyQWrite, getDLQRow] using this

/-- Witness for C10: a leased row with `attempt_count = 2` and an
unparseable address is dead-lettered with the count not incremented. -/
theorem C10_invalid_email_dead_letter_witness :
    execute_single_task
        ⟨[], [], [⟨5, "T", "X", "H", 0⟩], [⟨5, "not-an-email", 2, none, none⟩], [], []⟩
        777 5 "not-an-email" (.error "invalid subscriber email") (.ok ()) =
      .ok ⟨⟨[], [], [⟨5, "T", "X", "H", 0⟩], [], [],
            [⟨5, "not-an-email", 2, "invalid subscriber email", 777⟩]⟩,
           none, [.upsertDLQ 5 "not-an-email" 2 "invalid subscriber email" 777],
           [.deleteTask 5 "not-an-email"], true⟩ ∧
    getDLQRow ⟨[], [], [⟨5, "T", "X", "H", 0⟩], [], [],
        [⟨5, "not-an-email", 2, "invalid subscriber email", 777⟩]⟩ 5 "not-an-email" =
      some ⟨5, "not-an-email", 2, "invalid subscriber email", 777⟩ ∧
    getQueueRow ⟨[], [], [⟨5, "T", "X", "H", 0⟩], [], [],
        [⟨5, "not-an-email", 2, "invalid subscriber email", 777⟩]⟩ 5 "not-an-email" =
      none := by
  obtain ⟨res, h1, hdlq, hqr, hsent, hpool, hlease, hcom⟩ :=
    C10_invalid_email_dead_letter
    ⟨[], [], [⟨5, "T", "X", "H", 0⟩], [⟨5, "not-an-email", 2, none, none⟩], [], []⟩
    777 5 "not-an-email" ⟨5, "not-an-email", 2, none, none⟩
    "invalid subscriber email" (.ok ()) (by decide) (by decide)
  have hres : res = ⟨⟨[], [], [⟨5, "T", "X", "H", 0⟩], [], [],
      [⟨5, "not-an-email", 2, "invalid subscriber email", 777⟩]⟩,
      none, [.upsertDLQ 5 "not-an-email" 2 "invalid subscriber email" 777],
      [.deleteTask 5 "not-an-email"], true⟩ :=
    Except.ok.inj (h1.symm.trans (by decide))
  rw [hres] at h1 hdlq hqr
  exact ⟨h1, hdlq, hqr⟩

/-! ## C5: the exponential-backoff gate -/

/-- Claim C5 — for a leased task whose row has `last_attempted_at` set, the
required wait `backoffWaitSecs attempt_count =
RETRY_BACKOFF_MINUTES * 60 * min(2 ^ attempt_count, 32)` seconds is
non-decreasing in the attempt count and at most 32 times the base
`RETRY_BACKOFF_MINUTES * 60`; when `now - last_attempted_at` is below the
wait the worker rolls the lease transaction back and returns without
sending, deleting or modifying anything; when `last_attempted_at` is null
the gate is skipped and the send is attempted immediately. -/
theorem C5_backoff_gate (db : DB) (now : Int) (i : Nat) (e : String)
    (row : QueueRow) (pr sr : Except String Unit)
    (hrow : getQueueRow db i e = some row) :
    (∀ t, row.last_attempted_at = some t →
       now - t < backoffWaitSecs row.attempt_count →
       execute_single_task db now i e pr sr = .ok ⟨db, none, [], [], false⟩) ∧
    (∀ a b : Nat, a ≤ b → backoffWaitSecs a ≤ backoffWaitSecs b) ∧
    (∀ a : Nat, backoffWaitSecs a ≤ 32 * (RETRY_BACKOFF_MINUTES * 60)) ∧
    (row.last_attempted_at = none → ∀ iss, getIssue db i = some iss →
       ∃ res, execute_single_task db now i e (.ok ()) sr = .ok res ∧
         res.sentTo = some (i, e)) := by
  refine ⟨?_, ?_, ?_, ?_⟩
  · intro t hlast hlt
    have hskip : backoffSkip row now = true := by
      simp [backoffSkip, hlast, hlt]
    simp [execute_single_task, hrow, hskip]
  · intro a b hab
    unfold backoffWaitSecs
    have h2 : (2 : Int) ^ a ≤ 2 ^ b := pow_le_pow_right₀ (by norm_num) hab
    have hmin : min ((2 : Int) ^ a) 32 ≤ min ((2 : Int) ^ b) 32 :=
      min_le_min h2 (le_refl _)
    have hb : (0 : Int) ≤ RETRY_BACKOFF_MINUTES * 60 := by
      norm_num [RETRY_BACKOFF_MINUTES]
    exact mul_le_mul_of_nonneg_left hmin hb
  · intro a
    unfold backoffWaitSecs
    have hmin : min ((2 : Int) ^ a) 32 ≤ 32 := min_le_right _ _
    have hb : (0 : Int) ≤ RETRY_BACKOFF_MINUTES * 60 := by
      norm_num [RETRY_BACKOFF_MINUTES]
    calc RETRY_BACKOFF_MINUTES * 60 * min ((2 : Int) ^ a) 32
        ≤ RETRY_BACKOFF_MINUTES * 60 * 32 := mul_le_mul_of_nonneg_left hmin hb
      _ = 32 * (RETRY_BACKOFF_MINUTES * 60) := by ring
  · intro hlast iss hiss
    have hskip : backoffSkip row now = false := by
      simp [backoffSkip, hlast]
    cases sr with
    | ok _ =>
      exact ⟨⟨applyQWrite db (.deleteTask i e), some (i, e), [],
        [.deleteTask i e], true⟩, by simp [execute_single_task, hrow, hskip, hiss], rfl⟩
    | error msg =>
      by_cases hm : MAX_RETRY_ATTEMPTS ≤ row.attempt_count + 1
      · exact ⟨⟨applyQWrite (applyQWrite db
          (.upsertDLQ i e (row.attempt_count + 1) msg now)) (.deleteTask i e),
          some (i, e), [.upsertDLQ i e (row.attempt_count + 1) msg now],
          [.deleteTask i e], true⟩,
          by simp [execute_single_task, hrow, hskip, hiss, hm], rfl⟩
      · exact ⟨⟨applyQWrite db (.updateRetry i e (row.attempt_count + 1) now msg),
          some (i, e), [.updateRetry i e (row.attempt_count + 1) now msg],
          [], false⟩,
          by simp [execute_single_task, hrow, hskip, hiss, hm], rfl⟩

/-- Witness for C5: a row two minutes after its first failed attempt is
skipped (the wait at `attempt_count = 1` is ten minutes), the wait is
monotone and capped, and a never-attempted row is sent at once. -/
theorem C5_backoff_gate_witness :
    execute_single_task
        ⟨[], [], [⟨5, "T", "X", "H", 0⟩], [⟨5, "a@b.com", 1, some 0, none⟩], [], []⟩
        120 5 "a@b.com" (.ok ()) (.ok ()) =
      .ok ⟨⟨[], [], [⟨5, "T", "X", "H", 0⟩], [⟨5, "a@b.com", 1, some 0, none⟩],
            [], []⟩, none, [], [], false⟩ ∧
    backoffWaitSecs 1 ≤ backoffWaitSecs 3 ∧
    backoffWaitSecs 7 ≤ 32 * (RETRY_BACKOFF_MINUTES * 60) ∧
    execute_single_task
        ⟨[], [], [⟨5, "T", "X", "H", 0⟩], [⟨5, "b@c.com", 0, none, none⟩], [], []⟩
        120 5 "b@c.com" (.ok ()) (.ok ()) =
      .ok ⟨⟨[], [], [⟨5, "T", "X", "H", 0⟩], [], [], []⟩,
           some (5, "b@c.com"), [], [.deleteTask 5 "b@c.com"], true⟩ := by
  have h := C5_backoff_gate
    ⟨[], [], [⟨5, "T", "X", "H", 0⟩], [⟨5, "a@b.com", 1, some 0, none⟩], [], []⟩
    120 5 "a@b.com" ⟨5, "a@b.com", 1, some 0, none⟩ (.ok ()) (.ok ())
    (by decide)
  have h2 := C5_backoff_gate
    ⟨[], [], [⟨5, "T", "X", "H", 0⟩], [⟨5, "b@c.com", 0, none, none⟩], [], []⟩
    120 5 "b@c.com" ⟨5, "b@c.com", 0, none, none⟩ (.ok ()) (.ok ())
    (by decide)
  obtain ⟨res, hr1, hr2⟩ := h2.2.2.2 rfl ⟨5, "T", "X", "H", 0⟩ (by decide)
  have hres : res = ⟨⟨[], [], [⟨5, "T", "X", "H", 0⟩], [], [], []⟩,
      some (5, "b@c.com"), [], [.deleteTask 5 "b@c.com"], true⟩ :=
    Except.ok.inj (hr1.symm.trans (by decide))
  rw [hres] at hr1
  exact ⟨h.1 0 rfl (by decide), h.2.1 1 3 (by decide), h.2.2.1 7, hr1⟩

/-! ## C2: fan-out reaches exactly the confirmed subscribers -/

/-- No delivery-queue row belongs to issue `i`. -/
def noIssueRows (db : DB) (i : Nat) : Prop :=
  ∀ r ∈ db.issue_delivery_queue, r.newsletter_issue_id ≠ i

theorem sentTo_of_execute (db : DB) (now : Int) (i0 : Nat) (e0 : String)
    (pr sr : Except String Unit) (res : TaskResult)
    (hres : execute_single_task db now i0 e0 pr sr = .ok res)
    (p : Nat × String) (hs : res.sentTo = some p) :
    p = (i0, e0) ∧ ∃ row ∈ db.issue_delivery_queue, row.newsletter_issue_id = i0 := by
  have key : ∀ row : QueueRow, getQueueRow db i0 e0 = some row →
      ∃ x ∈ db.issue_delivery_queue, x.newsletter_issue_id = i0 := by
    intro row hq
    refine ⟨row, List.mem_of_find?_eq_some hq, ?_⟩
    have := List.find?_some hq
    simp only [QueueRow.keyIs, Bool.and_eq_true, beq_iff_eq] at this
    exact this.1
  unfold execute_single_task at hres
  split at hres
  · exact absurd hres (by simp)
  next row hq =>
    split at hres
    · injection hres with hres; subst hres; exact absurd hs (by simp)
    · split at hres
      next =>
        injection hres with hres; subst hres; exact absurd hs (by simp)
      next =>
        split at hres
        · exact absurd hres (by simp)
        next iss hi =>
          split at hres
          next =>
            injection hres with hres; subst hres
            simp only at hs
            injection hs with hs
            exact ⟨hs.symm, key row hq⟩
          next msg =>
            dsimp only at hres
            split at hres
            next =>
              injection hres with hres; subst hres
              simp only at hs
              injection hs with hs
              exact ⟨hs.symm, key row hq⟩
            next =>
              injection hres with hres; subst hres
              simp only at hs
              injection hs with hs
              exact ⟨hs.symm, key row hq⟩

theorem queue_ids_of_execute (db : DB) (now : Int) (i0 : Nat) (e0 : String)
    (pr sr : Except String Unit) (res : TaskResult)
    (hres : execute_single_task db now i0 e0 pr sr = .ok res) :
    ∀ r ∈ res.db.issue_delivery_queue, ∃ x ∈ db.issue_delivery_queue,
      r.newsletter_issue_id = x.newsletter_issue_id := by
  have hdel : ∀ dbx : DB, dbx.issue_delivery_queue = db.issue_delivery_queue →
      ∀ r ∈ (applyQWrite dbx (.deleteTask i0 e0)).issue_delivery_queue,
        ∃ x ∈ db.issue_delivery_queue, r.newsletter_issue_id = x.newsletter_issue_id := by
    intro dbx hq r hr
    simp only [applyQWrite] at hr
    rw [hq] at hr
    exact ⟨r, (List.mem_filter.mp hr).1, rfl⟩
  unfold execute_single_task at hres
  split at hres
  · exact absurd hres (by simp)
  next row hq =>
    split at hres
    · injection hres with hres; subst hres
      exact fun r hr => ⟨r, hr, rfl⟩
    · split at hres
      next =>
        injection hres with hres; subst hres
        intro r hr
        refine hdel _ ?_ r hr
        simp only [applyQWrite]
        split <;> rfl
      next =>
        split at hres
        · exact absurd hres (by simp)
        next iss hi =>
          split at hres
          next =>
            injection hres with hres; subst hres
            exact hdel db rfl
          next msg =>
            dsimp only at hres
            split at hres
            next =>
              injection hres with hres; subst hres
              intro r hr
              refine hdel _ ?_ r hr
              simp only [applyQWrite]
              split <;> rfl
            next =>
              injection hres with hres; subst hres
              intro r hr
              simp only [applyQWrite, List.mem_map] at hr
              obtain ⟨x, hx, hfx⟩ := hr
              refine ⟨x, hx, ?_⟩
              by_cases hk : x.keyIs i0 e0 = true
              · rw [if_pos hk] at hfx; subst hfx; rfl
              · rw [if_neg hk] at hfx; subst hfx; rfl

theorem noIssueRows_applyWStep (db : DB) (i : Nat) (s : WStep)
    (hno : noIssueRows db i)
    (hs : ∀ j, s = WStep.enqueue j → j ≠ i) :
    noIssueRows (applyWStep db s) i := by
  cases s with
  | enqueue j =>
    intro r hr
    simp only [applyWStep, enequeue_delivery_tasks, List.mem_append] at hr
    cases hr with
    | inl hr => exact hno r hr
    | inr hr =>
      simp only [fanoutRows, List.mem_map] at hr
      obtain ⟨x, _, hx⟩ := hr
      subst hx
      exact hs j rfl
  | task now i0 e0 pr sr =>
    intro r hr
    simp only [applyWStep] at hr
    cases hres : execute_single_task db now i0 e0 pr sr with
    | ok res =>
      rw [hres] at hr
      obtain ⟨x, hx, hid⟩ := queue_ids_of_execute db now i0 e0 pr sr res hres r hr
      rw [hid]
      exact hno x hx
    | error _ =>
      rw [hres] at hr
      exact hno r hr

theorem no_send_for_absent_issue (i : Nat) (steps : List WStep) :
    ∀ db : DB, noIssueRows db i →
    (∀ j, WStep.enqueue j ∈ steps → j ≠ i) →
    ∀ e, (i, e) ∉ (runSteps db steps).2 := by
  induction steps with
  | nil => intro db _ _ e h; simp [runSteps] at h
  | cons s rest ih =>
    intro db hno hsteps e hmem
    simp only [runSteps, List.mem_append] at hmem
    cases hmem with
    | inl hmem =>
      cases s with
      | enqueue j =>
        have hnone : stepSend db (WStep.enqueue j) = none := rfl
        rw [hnone] at hmem
        simp at hmem
      | task now i0 e0 pr sr =>
        simp only [stepSend] at hmem
        cases hres : execute_single_task db now i0 e0 pr sr with
        | ok res =>
          rw [hres] at hmem
          dsimp only at hmem
          have hsent : res.sentTo = some (i, e) := by
            cases hst : res.sentTo with
            | none =>
              rw [hst] at hmem
              simp at hmem
            | some p =>
              rw [hst] at hmem
              simp only [Option.toList_some, List.mem_singleton] at hmem
              rw [← hmem]
          obtain ⟨hpe, x, hx, hxi⟩ :=
            sentTo_of_execute db now i0 e0 pr sr res hres (i, e) hsent
          injection hpe with h1 h2
          exact hno x hx (hxi.trans h1.symm)
        | error _ =>
          rw [hres] at hmem
          simp at hmem
    | inr hmem =>
      exact ih (applyWStep db s) (noIssueRows_applyWStep db i s hno
          (fun j hj => hsteps j (hj ▸ List.mem_cons_self s rest)))
        (fun j hj => hsteps j (List.mem_cons_of_mem s hj)) e hmem

/-- Claim C2 — `enequeue_delivery_tasks` inserts exactly one fresh queue row
`(issue_id, subscriber_email)` per subscriber confirmed at that moment and
none for a pending subscriber; when no subscriber is confirmed the queue is
unchanged, and if moreover the issue has no queue row at all, no subsequent
worker step (nor fan-out for other issues) ever makes a provider call for
that issue. -/
theorem C2_fanout_confirmed_only (db : DB) (i : Nat) :
    (∀ s ∈ db.subscriptions, s.status = "confirmed" →
       (⟨i, s.email, 0, none, none⟩ : QueueRow) ∈
         (enequeue_delivery_tasks db i).issue_delivery_queue) ∧
    (∀ r ∈ (enequeue_delivery_tasks db i).issue_delivery_queue,
       r ∈ db.issue_delivery_queue ∨
       ∃ s ∈ db.subscriptions, s.status = "confirmed" ∧
         r = ⟨i, s.email, 0, none, none⟩) ∧
    ((∀ s ∈ db.subscriptions, s.status ≠ "confirmed") →
       (enequeue_delivery_tasks db i).issue_delivery_queue =
         db.issue_delivery_queue ∧
       (noIssueRows db i → ∀ steps : List WStep,
          (∀ j, WStep.enqueue j ∈ steps → j ≠ i) →
          ∀ e, (i, e) ∉ (runSteps (enequeue_delivery_tasks db i) steps).2)) := by
  have hchar : ∀ hpend : ∀ s ∈ db.subscriptions, s.status ≠ "confirmed",
      (enequeue_delivery_tasks db i).issue_delivery_queue =
        db.issue_delivery_queue := by
    intro hpend
    simp only [enequeue_delivery_tasks, fanoutRows]
    have : db.subscriptions.filter (fun s => s.status == "confirmed") = [] := by
      rw [List.filter_eq_nil_iff]
      intro s hs
      simp only [beq_iff_eq]
      exact hpend s hs
    rw [this]
    simp
  refine ⟨?_, ?_, ?_⟩
  · intro s hs hst
    simp only [enequeue_delivery_tasks, List.mem_append, fanoutRows, List.mem_map]
    right
    exact ⟨s, List.mem_filter.mpr ⟨hs, by simp [hst]⟩, rfl⟩
  · intro r hr
    simp only [enequeue_delivery_tasks, List.mem_append, fanoutRows,
      List.mem_map] at hr
    cases hr with
    | inl hr => exact Or.inl hr
    | inr hr =>
      obtain ⟨s, hs, hr⟩ := hr
      have hmem := List.mem_filter.mp hs
      exact Or.inr ⟨s, hmem.1, by simpa using hmem.2, hr.symm⟩
  · intro hpend
    refine ⟨hchar hpend, ?_⟩
    intro hno steps hsteps e
    have hno2 : noIssueRows (enequeue_delivery_tasks db i) i := by
      intro r hr
      rw [hchar hpend] at hr
      exact hno r hr
    exact no_send_for_absent_issue i steps (enequeue_delivery_tasks db i)
      hno2 hsteps e

/-- Witness for C2: with one confirmed subscriber the fan-out row appears;
with only a pending subscriber the queue stays empty and a later worker
step makes no provider call for the issue. -/
theorem C2_fanout_confirmed_only_witness :
    ((⟨5, "a@b.com", 0, none, none⟩ : QueueRow) ∈
       (enequeue_delivery_tasks
         ⟨[⟨1, "a@b.com", "A", 0, "confirmed"⟩], [], [], [], [], []⟩
         5).issue_delivery_queue) ∧
    (enequeue_delivery_tasks
        ⟨[⟨2, "p@b.com", "P", 0, "pending_confirmation"⟩], [], [], [], [], []⟩
        5).issue_delivery_queue = [] ∧
    (5, "p@b.com") ∉ (runSteps
        (enequeue_delivery_tasks
          ⟨[⟨2, "p@b.com", "P", 0, "pending_confirmation"⟩], [], [], [], [], []⟩ 5)
        [WStep.task 0 9 "x@y.zz" (.ok ()) (.ok ())]).2 := by
  constructor
  · exact (C2_fanout_confirmed_only
      ⟨[⟨1, "a@b.com", "A", 0, "confirmed"⟩], [], [], [], [], []⟩ 5).1
      ⟨1, "a@b.com", "A", 0, "confirmed"⟩ (by simp) rfl
  · have h := (C2_fanout_confirmed_only
      ⟨[⟨2, "p@b.com", "P", 0, "pending_confirmation"⟩], [], [], [], [], []⟩ 5).2.2
      (by intro s hs; simp at hs; subst hs; simp)
    refine ⟨h.1, ?_⟩
    exact h.2 (by intro r hr; simp at hr)
      [WStep.task 0 9 "x@y.zz" (.ok ()) (.ok ())]
      (by intro j hj; simp at hj) "p@b.com"

/-! ## C6: the three outcomes of `try_processing` -/

/-- Claim C6 — `try_processing` returns `StartProcessing` carrying the open
transaction (holding the pending reservation insert) exactly when the
reservation insert affects a row (no record yet); when a record exists with
a saved response it replays it as `ReturnSavedResponse`; when the
reservation exists with null response columns it returns an error, which
`publish_newsletter` surfaces as a 500. -/
theorem C6_try_processing_cases (db : DB) (u : Nat) (k : String) (now : Int) :
    (getIdemRow db u k = none →
       try_processing db k u now =
         .ok (.startProcessing [.insertReservation u k now])) ∧
    (∀ row, getIdemRow db u k = some row → ∀ sr, row.response = some sr →
       ∀ resp, get_saved_response db k u = .ok (some resp) →
       try_processing db k u now = .ok (.returnSavedResponse resp)) ∧
    (∀ row, getIdemRow db u k = some row → row.response = none →
       (∃ e, try_processing db k u now = .error e) ∧
       (∀ T X H f, ∃ e, publish_newsletter db u k T X H f now =
          .error (.e500 e))) := by
  refine ⟨?_, ?_, ?_⟩
  · intro hnone
    have hany : db.idempotency.any
        (fun r => r.user_id == u && r.idempotency_key == k) = false := by
      rw [Bool.eq_false_iff]
      intro h
      obtain ⟨x, hx, hpx⟩ := List.any_eq_true.mp h
      exact List.find?_eq_none.mp hnone x hx hpx
    simp [try_processing, hany]
  · intro row hrow sr hsr resp hresp
    have hrow2 : db.idempotency.find?
        (fun r => r.user_id == u && r.idempotency_key == k) = some row := hrow
    have hpx := @List.find?_some _ _ _ _ hrow2
    have hany : db.idempotency.any
        (fun r => r.user_id == u && r.idempotency_key == k) = true :=
      List.any_eq_true.mpr ⟨row, List.mem_of_find?_eq_some hrow2, hpx⟩
    simp [try_processing, hany, hresp]
  · intro row hrow hresp
    have hrow2 : db.idempotency.find?
        (fun r => r.user_id == u && r.idempotency_key == k) = some row := hrow
    have hpx := @List.find?_some _ _ _ _ hrow2
    have hany : db.idempotency.any
        (fun r => r.user_id == u && r.idempotency_key == k) = true :=
      List.any_eq_true.mpr ⟨row, List.mem_of_find?_eq_some hrow2, hpx⟩
    have herr : get_saved_response db k u =
        .error "error occurred while decoding column" := by
      simp only [get_saved_response, getIdemRow, hrow2, hresp]
    constructor
    · exact ⟨"error occurred while decoding column",
        by simp [try_processing, hany, herr]⟩
    · intro T X H f
      exact ⟨"error occurred while decoding column",
        by simp [publish_newsletter, try_processing, hany, herr]⟩

/-- Witness for C6 at concrete databases: a fresh key starts processing, a
completed record is replayed, an in-flight reservation errors and the
publish endpoint turns that error into a 500. -/
theorem C6_try_processing_cases_witness :
    try_processing ⟨[], [], [], [], [], []⟩ "key1" 7 50 =
      .ok (.startProcessing [.insertReservation 7 "key1" 50]) ∧
    try_processing
        ⟨[], [], [], [], [⟨7, "key1", 0, some savedRedirectRecord⟩], []⟩
        "key1" 7 50 =
      .ok (.returnSavedResponse (see_other "/admin/newsletters")) ∧
    try_processing ⟨[], [], [], [], [⟨7, "key1", 0, none⟩], []⟩ "key1" 7 50 =
      .error "error occurred while decoding column" ∧
    publish_newsletter ⟨[], [], [], [], [⟨7, "key1", 0, none⟩], []⟩
        7 "key1" "T" "X" "H" 42 50 =
      .error (.e500 "error occurred while decoding column") := by
  have h1 := (C6_try_processing_cases ⟨[], [], [], [], [], []⟩ 7 "key1" 50).1 rfl
  have ha : getIdemRow
      ⟨[], [], [], [], [⟨7, "key1", 0, some savedRedirectRecord⟩], []⟩ 7 "key1" =
      some ⟨7, "key1", 0, some savedRedirectRecord⟩ := by decide
  have hb : get_saved_response
      ⟨[], [], [], [], [⟨7, "key1", 0, some savedRedirectRecord⟩], []⟩ "key1" 7 =
      .ok (some (see_other "/admin/newsletters")) := by decide
  have h2 := (C6_try_processing_cases
      ⟨[], [], [], [], [⟨7, "key1", 0, some savedRedirectRecord⟩], []⟩
      7 "key1" 50).2.1
    ⟨7, "key1", 0, some savedRedirectRecord⟩ ha savedRedirectRecord rfl
    (see_other "/admin/newsletters") hb
  have hc : getIdemRow ⟨[], [], [], [], [⟨7, "key1", 0, none⟩], []⟩ 7 "key1" =
      some ⟨7, "key1", 0, none⟩ := by decide
  have h3 := (C6_try_processing_cases
      ⟨[], [], [], [], [⟨7, "key1", 0, none⟩], []⟩ 7 "key1" 50).2.2
    ⟨7, "key1", 0, none⟩ hc rfl
  obtain ⟨e3, he3⟩ := h3.1
  obtain ⟨e4, he4⟩ := h3.2 "T" "X" "H" 42
  have hh3 : try_processing ⟨[], [], [], [], [⟨7, "key1", 0, none⟩], []⟩
      "key1" 7 50 = .error "error occurred while decoding column" := by decide
  have hh4 : publish_newsletter ⟨[], [], [], [], [⟨7, "key1", 0, none⟩], []⟩
      7 "key1" "T" "X" "H" 42 50 =
      .error (.e500 "error occurred while decoding column") := by decide
  exact ⟨h1, h2, hh3, hh4⟩

/-! ## C7: the save/read round trip of the idempotency store -/

theorem statusRoundTrip (s : Nat) (hlo : 100 ≤ s) (hhi : s ≤ 999) :
    statusFromI16 (statusAsI16 s) = .ok s := by
  have h1 : s % 65536 = s := Nat.mod_eq_of_lt (by omega)
  simp only [statusAsI16, h1]
  rw [if_pos (by omega : s < 32768)]
  simp only [statusFromI16, Int.toNat_natCast]
  rw [if_neg (by omega), if_pos ⟨hlo, hhi⟩]

theorem idem_map_update_of_none (db : DB) (u : Nat) (k : String)
    (hnone : getIdemRow db u k = none) (sr : SavedResp) :
    db.idempotency.map (fun r =>
        if r.user_id == u && r.idempotency_key == k then
          { r with response := some sr } else r) = db.idempotency := by
  apply map_update_of_no_match
  intro x hx
  rw [Bool.eq_false_iff]
  exact List.find?_eq_none.mp hnone x hx

/-- Claim C7 — `save_response` stores the response status, its headers as an
ordered list of `(name, value)` pairs (duplicates allowed) and the full
body bytes, commits, and hands back a response equal to its input; a
subsequent `get_saved_response` reconstructs the same status, the same
headers in the same order, and the same body bytes. -/
theorem C7_save_response_roundtrip (db : DB) (u : Nat) (k : String)
    (t0 : Int) (resp : HttpResponse)
    (hnone : getIdemRow db u k = none)
    (hlo : 100 ≤ resp.status) (hhi : resp.status ≤ 999) :
    (save_response db [.insertReservation u k t0] k u resp).1 = resp ∧
    getIdemRow (save_response db [.insertReservation u k t0] k u resp).2 u k =
      some ⟨u, k, t0, some ⟨statusAsI16 resp.status,
        resp.headers.map (fun p => ⟨p.1, p.2⟩), resp.body⟩⟩ ∧
    get_saved_response (save_response db [.insertReservation u k t0] k u resp).2
      k u = .ok (some resp) := by
  have hany : db.idempotency.any
      (fun r => r.user_id == u && r.idempotency_key == k) = false := by
    rw [Bool.eq_false_iff]
    intro h
    obtain ⟨x, hx, hpx⟩ := List.any_eq_true.mp h
    exact List.find?_eq_none.mp hnone x hx hpx
  have hidem : (save_response db [.insertReservation u k t0] k u resp).2.idempotency =
      db.idempotency ++ [⟨u, k, t0, some ⟨statusAsI16 resp.status,
        resp.headers.map (fun p => ⟨p.1, p.2⟩), resp.body⟩⟩] := by
    simp only [save_response, commitTxn, List.foldl, applyIWrite, hany,
      Bool.false_eq_true, if_false, List.map_append,
      idem_map_update_of_none db u k hnone]
    simp
  have hrow : getIdemRow (save_response db [.insertReservation u k t0] k u resp).2 u k =
      some ⟨u, k, t0, some ⟨statusAsI16 resp.status,
        resp.headers.map (fun p => ⟨p.1, p.2⟩), resp.body⟩⟩ := by
    simp only [getIdemRow, hidem]
    rw [find?_append_of_none _ _ _ hnone]
    simp [List.find?]
  refine ⟨rfl, hrow, ?_⟩
  simp only [get_saved_response, hrow, statusRoundTrip resp.status hlo hhi]
  have hcomp : ((fun hp : HeaderPairRecord => (hp.name, hp.value)) ∘
      (fun p : String × List Nat => (⟨p.1, p.2⟩ : HeaderPairRecord))) = id := by
    funext p
    rfl
  simp only [List.map_map, hcomp, List.map_id]

/-- Witness for C7: a fresh key and a response with duplicate header names
(two cookies) whose order round-trips. -/
theorem C7_save_response_roundtrip_witness :
    (save_response ⟨[], [], [], [], [], []⟩ [.insertReservation 7 "key1" 5]
       "key1" 7 ⟨303, [("set-cookie", [1]), ("set-cookie", [2]),
                       ("location", [3])], [9, 9]⟩).1 =
      ⟨303, [("set-cookie", [1]), ("set-cookie", [2]), ("location", [3])], [9, 9]⟩ ∧
    getIdemRow (save_response ⟨[], [], [], [], [], []⟩
        [.insertReservation 7 "key1" 5] "key1" 7
        ⟨303, [("set-cookie", [1]), ("set-cookie", [2]), ("location", [3])],
         [9, 9]⟩).2 7 "key1" =
      some ⟨7, "key1", 5, some ⟨statusAsI16 303,
        [("set-cookie", [1]), ("set-cookie", [2]),
         ("location", [3])].map (fun p => ⟨p.1, p.2⟩), [9, 9]⟩⟩ ∧
    get_saved_response (save_response ⟨[], [], [], [], [], []⟩
        [.insertReservation 7 "key1" 5] "key1" 7
        ⟨303, [("set-cookie", [1]), ("set-cookie", [2]), ("location", [3])],
         [9, 9]⟩).2 "key1" 7 =
      .ok (some ⟨303, [("set-cookie", [1]), ("set-cookie", [2]),
                       ("location", [3])], [9, 9]⟩) := by
  exact C7_save_response_roundtrip ⟨[], [], [], [], [], []⟩ 7 "key1" 5
    ⟨303, [("set-cookie", [1]), ("set-cookie", [2]), ("location", [3])], [9, 9]⟩
    rfl (by norm_num) (by norm_num)

/-! ## C1: at-most-once publication under an idempotency key -/

/-- Run a sequence of publish submissions for one `(user_id, key)` and one
form body; each list entry supplies that call's fresh issue id and clock. -/
def publishSeq (u : Nat) (k T X H : String) :
    DB → List (Nat × Int) → List (Except PubErr HttpResponse) × DB
  | db, [] => ([], db)
  | db, (f, n) :: rest =>
    match publish_newsletter db u k T X H f n with
    | .ok (r, db1) =>
      let t := publishSeq u k T X H db1 rest
      (.ok r :: t.1, t.2)
    | .error err =>
      let t := publishSeq u k T X H db rest
      (.error err :: t.1, t.2)

theorem any_eq_false_of_getIdemRow_none (db : DB) (u : Nat) (k : String)
    (hnone : getIdemRow db u k = none) :
    db.idempotency.any (fun r => r.user_id == u && r.idempotency_key == k)
      = false := by
  rw [Bool.eq_false_iff]
  intro h
  obtain ⟨x, hx, hpx⟩ := List.any_eq_true.mp h
  exact List.find?_eq_none.mp hnone x hx hpx

/-- A publish under a fresh key executes the whole pipeline and commits the
issue row, the fan-out and the completed idempotency record atomically. -/
theorem publish_fresh (db : DB) (u : Nat) (k T X H : String) (f : Nat) (n : Int)
    (hnone : getIdemRow db u k = none) :
    publish_newsletter db u k T X H f n =
      .ok (see_other "/admin/newsletters",
        { db with
          newsletter_issues := db.newsletter_issues ++ [⟨f, T, X, H, n⟩],
          issue_delivery_queue := db.issue_delivery_queue ++ fanoutRows db f,
          idempotency := db.idempotency ++ [⟨u, k, n, some savedRedirectRecord⟩] }) := by
  have hany := any_eq_false_of_getIdemRow_none db u k hnone
  simp only [publish_newsletter, try_processing, hany, Bool.false_eq_true,
    if_false, Nat.lt_irrefl, if_neg, save_response, commitTxn,
    List.nil_append, List.cons_append, List.foldl, applyIWrite,
    Bool.false_eq_true, if_false, List.map_append]
  rw [if_pos (by norm_num)]
  simp only [List.foldl, applyIWrite, hany, Bool.false_eq_true, if_false,
    List.map_append, idem_map_update_of_none db u k hnone]
  simp [see_other, savedRedirectRecord, List.map]

/-- A publish that finds the completed record replays the stored redirect
and leaves the database untouched. -/
theorem publish_replay (db : DB) (u : Nat) (k T X H : String) (f : Nat)
    (n : Int) (row : IdemRow)
    (hrow : getIdemRow db u k = some row)
    (hresp : row.response = some savedRedirectRecord) :
    publish_newsletter db u k T X H f n =
      .ok (see_other "/admin/newsletters", db) := by
  have hrow2 : db.idempotency.find?
      (fun r => r.user_id == u && r.idempotency_key == k) = some row := hrow
  have hpx := @List.find?_some _ _ _ _ hrow2
  have hany : db.idempotency.any
      (fun r => r.user_id == u && r.idempotency_key == k) = true :=
    List.any_eq_true.mpr ⟨row, List.mem_of_find?_eq_some hrow2, hpx⟩
  have h303 : statusFromI16 (statusAsI16 303) = .ok 303 := rfl
  have hsaved : get_saved_response db k u =
      .ok (some (see_other "/admin/newsletters")) := by
    simp only [get_saved_response, getIdemRow, hrow2, hresp,
      savedRedirectRecord, h303]
    simp [see_other, List.map]
  simp [publish_newsletter, try_processing, hany, hsaved]

theorem publishSeq_replay (u : Nat) (k T X H : String)
    (params : List (Nat × Int)) (db : DB) (row : IdemRow)
    (hrow : getIdemRow db u k = some row)
    (hresp : row.response = some savedRedirectRecord) :
    (publishSeq u k T X H db params).2 = db ∧
    ∀ r ∈ (publishSeq u k T X H db params).1,
      r = .ok (see_other "/admin/newsletters") := by
  induction params with
  | nil => simp [publishSeq]
  | cons p rest ih =>
    obtain ⟨f, n⟩ := p
    have hpub := publish_replay db u k T X H f n row hrow hresp
    simp only [publishSeq, hpub]
    refine ⟨ih.1, ?_⟩
    intro r hr
    simp only [List.mem_cons] at hr
    cases hr with
    | inl hr => exact hr
    | inr hr => exact ih.2 r hr

/-- Claim C1 — for any N ≥ 1 sequential publish submissions with the same
`(user_id, idempotency_key)` on a database with no record for that key,
exactly one `newsletter_issues` row is created (the first call's) and
exactly one fan-out set of delivery-queue rows is inserted, committed
together with the saved response; every response of the sequence — the
first and every replayed one — is byte-identical to the saved
`see_other "/admin/newsletters"` redirect. -/
theorem C1_publish_exactly_once (db0 : DB) (u : Nat) (k T X H : String)
    (f0 : Nat) (n0 : Int) (params : List (Nat × Int))
    (hnone : getIdemRow db0 u k = none) :
    (publishSeq u k T X H db0 ((f0, n0) :: params)).2.newsletter_issues =
      db0.newsletter_issues ++ [⟨f0, T, X, H, n0⟩] ∧
    (publishSeq u k T X H db0 ((f0, n0) :: params)).2.issue_delivery_queue =
      db0.issue_delivery_queue ++ fanoutRows db0 f0 ∧
    ∀ r ∈ (publishSeq u k T X H db0 ((f0, n0) :: params)).1,
      r = .ok (see_other "/admin/newsletters") := by
  have hpub := publish_fresh db0 u k T X H f0 n0 hnone
  have hrec : getIdemRow
      { db0 with
        newsletter_issues := db0.newsletter_issues ++ [⟨f0, T, X, H, n0⟩],
        issue_delivery_queue := db0.issue_delivery_queue ++ fanoutRows db0 f0,
        idempotency := db0.idempotency ++ [⟨u, k, n0, some savedRedirectRecord⟩] }
      u k = some ⟨u, k, n0, some savedRedirectRecord⟩ := by
    simp only [getIdemRow]
    rw [find?_append_of_none _ _ _ hnone]
    simp [List.find?]
  have hrest := publishSeq_replay u k T X H params _ _ hrec rfl
  simp only [publishSeq, hpub]
  refine ⟨?_, ?_, ?_⟩
  · rw [hrest.1]
  · rw [hrest.1]
  · intro r hr
    simp only [List.mem_cons] at hr
    cases hr with
    | inl hr => exact hr
    | inr hr => exact hrest.2 r hr

/-- Witness for C1: two submissions with the same key on a database with
one confirmed subscriber create one issue, one queue-row set, and two
byte-identical 303 responses. -/
theorem C1_publish_exactly_once_witness :
    (publishSeq 7 "key1" "T" "X" "H"
       ⟨[⟨1, "a@b.com", "A", 0, "confirmed"⟩], [], [], [], [], []⟩
       [(42, 100), (43, 200)]).2.newsletter_issues =
      [] ++ [⟨42, "T", "X", "H", 100⟩] ∧
    (publishSeq 7 "key1" "T" "X" "H"
       ⟨[⟨1, "a@b.com", "A", 0, "confirmed"⟩], [], [], [], [], []⟩
       [(42, 100), (43, 200)]).2.issue_delivery_queue =
      [] ++ fanoutRows ⟨[⟨1, "a@b.com", "A", 0, "confirmed"⟩], [], [], [], [], []⟩ 42 ∧
    (publishSeq 7 "key1" "T" "X" "H"
       ⟨[⟨1, "a@b.com", "A", 0, "confirmed"⟩], [], [], [], [], []⟩
       [(42, 100), (43, 200)]).1 =
      [.ok (see_other "/admin/newsletters"), .ok (see_other "/admin/newsletters")] := by
  have h := C1_publish_exactly_once
    ⟨[⟨1, "a@b.com", "A", 0, "confirmed"⟩], [], [], [], [], []⟩
    7 "key1" "T" "X" "H" 42 100 [(43, 200)] rfl
  exact ⟨h.1, h.2.1, by decide⟩

/-! ## C8: idempotent confirmation -/

theorem get_subscriber_status_of_find (db : DB) (sid : Nat) (row : SubRow)
    (hrow : db.subscriptions.find? (fun r => r.id == sid) = some row) :
    get_subscriber_status db sid = some row.status := by
  simp [get_subscriber_status, hrow]

theorem confirm_subscriber_already (db : DB) (sid : Nat)
    (hstat : get_subscriber_status db sid = some "confirmed") :
    confirm_subscriber db sid = .ok db := by
  simp [confirm_subscriber, hstat]

theorem confirm_subscriber_pending (db : DB) (sid : Nat) (st : String)
    (hstat : get_subscriber_status db sid = some st)
    (hne : st ≠ "confirmed") :
    confirm_subscriber db sid =
      .ok { db with subscriptions := db.subscriptions.map (fun r =>
        if r.id == sid then { r with status := "confirmed" } else r) } := by
  simp [confirm_subscriber, hstat, hne]

theorem confirm_subscriber_missing (db : DB) (sid : Nat)
    (hstat : get_subscriber_status db sid = none) :
    confirm_subscriber db sid = .error "RowNotFound" := by
  simp [confirm_subscriber, hstat]

theorem confirm_of_ok (db db1 : DB) (t : String) (sid : Nat)
    (hparse : SubscriptionToken.parse t = .ok t)
    (hid : get_subscriber_id_from_token db t = some sid)
    (hcs : confirm_subscriber db sid = .ok db1) :
    confirm db t = (200, db1) := by
  simp [confirm, hparse, hid, hcs]

theorem confirm_of_error (db : DB) (t : String) (sid : Nat) (msg : String)
    (hparse : SubscriptionToken.parse t = .ok t)
    (hid : get_subscriber_id_from_token db t = some sid)
    (hcs : confirm_subscriber db sid = .error msg) :
    confirm db t = (500, db) := by
  simp [confirm, hparse, hid, hcs]

/-- Claim C8 — for a syntactically valid token that resolves to a subscriber
id: when the subscriber row exists, calling `confirm` twice answers 200
both times, leaves the status `"confirmed"` after each call, and the second
call changes nothing; when the subscriber row is missing (dangling token)
the operation fails with the internal error 500. -/
theorem C8_confirm_twice (db : DB) (t : String) (sid : Nat)
    (hparse : SubscriptionToken.parse t = .ok t)
    (hid : get_subscriber_id_from_token db t = some sid) :
    (∀ row, db.subscriptions.find? (fun r => r.id == sid) = some row →
       (confirm db t).1 = 200 ∧
       get_subscriber_status (confirm db t).2 sid = some "confirmed" ∧
       (confirm (confirm db t).2 t).1 = 200 ∧
       (confirm (confirm db t).2 t).2 = (confirm db t).2 ∧
       get_subscriber_status (confirm (confirm db t).2 t).2 sid =
         some "confirmed") ∧
    (db.subscriptions.find? (fun r => r.id == sid) = none →
       confirm db t = (500, db)) := by
  constructor
  · intro row hrow
    have hstat0 := get_subscriber_status_of_find db sid row hrow
    by_cases hst : row.status = "confirmed"
    · have hstat : get_subscriber_status db sid = some "confirmed" :=
        hst ▸ hstat0
      have hc1 : confirm db t = (200, db) :=
        confirm_of_ok db db t sid hparse hid
          (confirm_subscriber_already db sid hstat)
      rw [hc1]
      exact ⟨rfl, hstat, by rw [hc1], by rw [hc1], by rw [hc1]; exact hstat⟩
    · have hcs := confirm_subscriber_pending db sid row.status hstat0 hst
      have hc1 : confirm db t = (200,
          { db with subscriptions := db.subscriptions.map (fun r =>
            if r.id == sid then { r with status := "confirmed" } else r) }) :=
        confirm_of_ok db _ t sid hparse hid hcs
      have hrow1 : ({ db with subscriptions := db.subscriptions.map (fun r =>
            if r.id == sid then { r with status := "confirmed" } else r) } :
          DB).subscriptions.find? (fun r => r.id == sid) =
          some { row with status := "confirmed" } :=
        find?_map_update (fun r => r.id == sid)
          (fun r => { r with status := "confirmed" }) (fun x => rfl) _ row hrow
      have hstat1 : get_subscriber_status
          { db with subscriptions := db.subscriptions.map (fun r =>
            if r.id == sid then { r with status := "confirmed" } else r) }
          sid = some "confirmed" :=
        get_subscriber_status_of_find _ sid _ hrow1
      have hc2 : confirm
          { db with subscriptions := db.subscriptions.map (fun r =>
            if r.id == sid then { r with status := "confirmed" } else r) }
          t = (200, { db with subscriptions := db.subscriptions.map (fun r =>
            if r.id == sid then { r with status := "confirmed" } else r) }) :=
        confirm_of_ok _ _ t sid hparse hid
          (confirm_subscriber_already _ sid hstat1)
      rw [hc1]
      exact ⟨rfl, hstat1, by rw [hc2], by rw [hc2], by rw [hc2]; exact hstat1⟩
  · intro hnone
    have hstat : get_subscriber_status db sid = none := by
      simp [get_subscriber_status, hnone]
    exact confirm_of_error db t sid "RowNotFound" hparse hid
      (confirm_subscriber_missing db sid hstat)

/-- Witness for C8: a pending subscriber confirmed twice through a stored
25-character token, and the same token dangling over an empty subscriber
table. -/
theorem C8_confirm_twice_witness :
    (confirm ⟨[⟨3, "p@b.com", "P", 0, "pending_confirmation"⟩],
        [⟨"aBc123XyZ456mNoPqR789stUV", 3⟩], [], [], [], []⟩
        "aBc123XyZ456mNoPqR789stUV").1 = 200 ∧
    get_subscriber_status (confirm
        ⟨[⟨3, "p@b.com", "P", 0, "pending_confirmation"⟩],
         [⟨"aBc123XyZ456mNoPqR789stUV", 3⟩], [], [], [], []⟩
        "aBc123XyZ456mNoPqR789stUV").2 3 = some "confirmed" ∧
    (confirm (confirm ⟨[⟨3, "p@b.com", "P", 0, "pending_confirmation"⟩],
        [⟨"aBc123XyZ456mNoPqR789stUV", 3⟩], [], [], [], []⟩
        "aBc123XyZ456mNoPqR789stUV").2 "aBc123XyZ456mNoPqR789stUV").1 = 200 ∧
    (confirm (confirm ⟨[⟨3, "p@b.com", "P", 0, "pending_confirmation"⟩],
        [⟨"aBc123XyZ456mNoPqR789stUV", 3⟩], [], [], [], []⟩
        "aBc123XyZ456mNoPqR789stUV").2 "aBc123XyZ456mNoPqR789stUV").2 =
      (confirm ⟨[⟨3, "p@b.com", "P", 0, "pending_confirmation"⟩],
        [⟨"aBc123XyZ456mNoPqR789stUV", 3⟩], [], [], [], []⟩
        "aBc123XyZ456mNoPqR789stUV").2 ∧
    get_subscriber_status (confirm (confirm
        ⟨[⟨3, "p@b.com", "P", 0, "pending_confirmation"⟩],
         [⟨"aBc123XyZ456mNoPqR789stUV", 3⟩], [], [], [], []⟩
        "aBc123XyZ456mNoPqR789stUV").2 "aBc123XyZ456mNoPqR789stUV").2 3 =
      some "confirmed" ∧
    confirm ⟨[], [⟨"aBc123XyZ456mNoPqR789stUV", 3⟩], [], [], [], []⟩
        "aBc123XyZ456mNoPqR789stUV" =
      (500, ⟨[], [⟨"aBc123XyZ456mNoPqR789stUV", 3⟩], [], [], [], []⟩) := by
  have h := (C8_confirm_twice
    ⟨[⟨3, "p@b.com", "P", 0, "pending_confirmation"⟩],
     [⟨"aBc123XyZ456mNoPqR789stUV", 3⟩], [], [], [], []⟩
    "aBc123XyZ456mNoPqR789stUV" 3 (by decide) (by decide)).1
    ⟨3, "p@b.com", "P", 0, "pending_confirmation"⟩ (by decide)
  have hd := (C8_confirm_twice
    ⟨[], [⟨"aBc123XyZ456mNoPqR789stUV", 3⟩], [], [], [], []⟩
    "aBc123XyZ456mNoPqR789stUV" 3 (by decide) (by decide)).2 rfl
  exact ⟨h.1, h.2.1, h.2.2.1, h.2.2.2.1, h.2.2.2.2, hd⟩

/-! ## C9: duplicate subscriptions never add a second subscriber row -/

theorem subscribe_new (db : DB) (email name : String) (fid : Nat)
    (ftok : String) (tm : Int)
    (h : get_subscriber_by_email db email = none) :
    subscribe db email name fid ftok tm =
      (200, store_token (insert_subscriber db fid email name tm) fid ftok) := by
  simp [subscribe, h]

theorem subscribe_pending (db : DB) (email name : String) (sid : Nat)
    (st : String) (fid : Nat) (ftok : String) (tm : Int)
    (h : get_subscriber_by_email db email = some (sid, st))
    (hne : st ≠ "confirmed") :
    subscribe db email name fid ftok tm = (200, store_token db sid ftok) := by
  simp [subscribe, h, hne]

theorem subscribe_confirmed (db : DB) (email name : String) (sid : Nat)
    (fid : Nat) (ftok : String) (tm : Int)
    (h : get_subscriber_by_email db email = some (sid, "confirmed")) :
    subscribe db email name fid ftok tm = (200, db) := by
  simp [subscribe, h]

/-- Claim C9 — submitting the same address twice on a database that has no
row for it leaves exactly one `subscriptions` row for that email: the
first call inserts it with `status = 'pending_confirmation'`, the second
(pending case) only stores a new token, and on an already-confirmed
address `subscribe` is a database no-op. -/
theorem C9_subscribe_twice_single_row (db : DB) (email name1 name2 : String)
    (id1 id2 : Nat) (tok1 tok2 : String) (t1 t2 : Int)
    (hnone : db.subscriptions.find? (fun r => r.email == email) = none) :
    (subscribe db email name1 id1 tok1 t1).1 = 200 ∧
    (subscribe (subscribe db email name1 id1 tok1 t1).2 email name2 id2
       tok2 t2).1 = 200 ∧
    (subscribe db email name1 id1 tok1 t1).2.subscriptions.filter
        (fun r => r.email == email) =
      [⟨id1, email, name1, t1, "pending_confirmation"⟩] ∧
    (subscribe (subscribe db email name1 id1 tok1 t1).2 email name2 id2
       tok2 t2).2.subscriptions =
      (subscribe db email name1 id1 tok1 t1).2.subscriptions ∧
    (∀ dbx : DB, ∀ sid : Nat, ∀ nm ftok : String, ∀ fid : Nat, ∀ tm : Int,
       get_subscriber_by_email dbx email = some (sid, "confirmed") →
       subscribe dbx email nm fid ftok tm = (200, dbx)) := by
  have hmail : get_subscriber_by_email db email = none := by
    simp [get_subscriber_by_email, hnone]
  have h1 := subscribe_new db email name1 id1 tok1 t1 hmail
  have hsubs1 : (subscribe db email name1 id1 tok1 t1).2.subscriptions =
      db.subscriptions ++ [⟨id1, email, name1, t1, "pending_confirmation"⟩] := by
    rw [h1]
    rfl
  have hmail1 : get_subscriber_by_email
      (subscribe db email name1 id1 tok1 t1).2 email =
      some (id1, "pending_confirmation") := by
    simp only [get_subscriber_by_email, hsubs1]
    rw [find?_append_of_none _ _ _ hnone]
    simp [List.find?]
  have h2 := subscribe_pending (subscribe db email name1 id1 tok1 t1).2
    email name2 id1 "pending_confirmation" id2 tok2 t2 hmail1 (by decide)
  refine ⟨by rw [h1], by rw [h2], ?_, ?_, ?_⟩
  · rw [hsubs1, List.filter_append]
    have hnil : db.subscriptions.filter (fun r => r.email == email) = [] := by
      rw [List.filter_eq_nil_iff]
      exact List.find?_eq_none.mp hnone
    rw [hnil]
    simp [List.filter]
  · rw [h2]
    rfl
  · intro dbx sid nm ftok fid tm hconf
    exact subscribe_confirmed dbx email nm sid fid ftok tm hconf

/-- Witness for C9 on the empty database, plus the confirmed-address no-op
at a one-subscriber database. -/
theorem C9_subscribe_twice_single_row_witness :
    (subscribe ⟨[], [], [], [], [], []⟩ "a@b.com" "A" 1 "tokone" 10).1 = 200 ∧
    (subscribe (subscribe ⟨[], [], [], [], [], []⟩ "a@b.com" "A" 1 "tokone" 10).2
       "a@b.com" "A2" 2 "toktwo" 20).1 = 200 ∧
    (subscribe ⟨[], [], [], [], [], []⟩ "a@b.com" "A" 1 "tokone"
        10).2.subscriptions.filter (fun r => r.email == "a@b.com") =
      [⟨1, "a@b.com", "A", 10, "pending_confirmation"⟩] ∧
    (subscribe (subscribe ⟨[], [], [], [], [], []⟩ "a@b.com" "A" 1 "tokone" 10).2
       "a@b.com" "A2" 2 "toktwo" 20).2.subscriptions =
      (subscribe ⟨[], [], [], [], [], []⟩ "a@b.com" "A" 1 "tokone"
        10).2.subscriptions ∧
    subscribe ⟨[⟨1, "a@b.com", "A", 0, "confirmed"⟩], [], [], [], [], []⟩
        "a@b.com" "N" 9 "tokthree" 30 =
      (200, ⟨[⟨1, "a@b.com", "A", 0, "confirmed"⟩], [], [], [], [], []⟩) := by
  have h := C9_subscribe_twice_single_row ⟨[], [], [], [], [], []⟩
    "a@b.com" "A" "A2" 1 2 "tokone" "toktwo" 10 20 rfl
  refine ⟨h.1, h.2.1, h.2.2.1, h.2.2.2.1, ?_⟩
  exact h.2.2.2.2 ⟨[⟨1, "a@b.com", "A", 0, "confirmed"⟩], [], [], [], [], []⟩
    1 "N" "tokthree" 9 30 (by decide)

end Newsletter
